import Mathlib

/-!
Verification of the Record Store Service in `src/index.js`: a minimal Express
CRUD app over a single JSON file (`./data.json`) holding an array of user
records. Each HTTP handler is a pure read-modify-write cycle on the file's
contents, so we embed every handler as a function from the loaded collection
(a `List User`) to the persisted collection plus the HTTP response.

JavaScript semantics that matter here and are embedded explicitly:
`Array.prototype.findIndex` (returns `-1` when nothing matches),
`Array.prototype.splice` with a possibly negative start (a negative start
counts from the end, clamped at `0`), `Array.prototype.find` (returns
`undefined`, i.e. `none`, when nothing matches), and loose equality `==`
between a numeric `id` field and the textual path parameter, which coerces
the string with `ToNumber` and then compares numerically.

Numbers are idealised as `ℚ`: every JSON number and every `Math.random()`
result is a finite decimal, faithfully representable as a rational. The
`ToNumber` coercion of a string is embedded as `Option (Int × Nat)`, the
pair `(m, k)` denoting the rational `m / 10 ^ k` (see `scaledVal` and the
bridging lemma `looseEq_iff_scaledVal`), with `none` standing for the
non-finite results (`NaN`, `±Infinity`), none of which is loosely equal to
any finite stored id, so collapsing them loses nothing.
-/

/-- Characters treated as trimmable whitespace by the string-to-number
coercion (space, tab, line feed, carriage return, vertical tab, form feed). -/
def isJsWhitespace (c : Char) : Bool :=
  c == ' ' || c == '\t' || c == '\n' || c == '\r' || c.toNat == 11 || c.toNat == 12

/-- Strip leading and trailing whitespace, as `ToNumber` does before parsing. -/
def trimJs (l : List Char) : List Char :=
  ((l.dropWhile isJsWhitespace).reverse.dropWhile isJsWhitespace).reverse

/-- Numeric value of a list of decimal digit characters (most significant first). -/
def digitsVal (l : List Char) : Nat :=
  l.foldl (fun n c => 10 * n + (c.toNat - 48)) 0

/-- Value of a single hexadecimal digit character. -/
def hexDigitVal (c : Char) : Nat :=
  if c.isDigit then c.toNat - 48
  else if 'a' ≤ c ∧ c ≤ 'f' then c.toNat - 87
  else if 'A' ≤ c ∧ c ≤ 'F' then c.toNat - 55
  else 0

/-- Test for a hexadecimal digit character. -/
def isHexDigit (c : Char) : Bool :=
  c.isDigit || ('a' ≤ c && c ≤ 'f') || ('A' ≤ c && c ≤ 'F')

/-- Parse a non-decimal integer literal body (after `0x`/`0o`/`0b`) in the
given radix: all characters must be digits of that radix and at least one
digit must be present, otherwise the result is `NaN` (`none`). The result
is in scaled-decimal form `(m, k)` standing for `m / 10 ^ k` (here `k = 0`). -/
def parseRadix (radix : Nat) (isD : Char → Bool) (dval : Char → Nat) (l : List Char) :
    Option (Nat × Nat) :=
  if l.isEmpty || !(l.all isD) then none
  else some (l.foldl (fun n c => radix * n + dval c) 0, 0)

/-- Parse an unsigned decimal literal `digits [. digits] [e/E [sign] digits]`
(with at least one digit in the integer or fraction part) into scaled-decimal
form `(m, k)` standing for the exact value `m / 10 ^ k`; anything else is
`NaN` (`none`). -/
def parseUnsignedDec (l : List Char) : Option (Nat × Nat) :=
  let ip := l.takeWhile Char.isDigit
  let r1 := l.dropWhile Char.isDigit
  let fr : List Char × List Char :=
    match r1 with
    | '.' :: rest => (rest.takeWhile Char.isDigit, rest.dropWhile Char.isDigit)
    | _ => ([], r1)
  let fp := fr.1
  let r2 := fr.2
  if ip.isEmpty && fp.isEmpty then none
  else
    let mant : Nat := digitsVal (ip ++ fp)
    let scaled : Int → Option (Nat × Nat) := fun e =>
      let shift : Int := e - (fp.length : Int)
      if 0 ≤ shift then some (mant * 10 ^ shift.toNat, 0)
      else some (mant, (-shift).toNat)
    match r2 with
    | [] => scaled 0
    | e :: rest =>
      if e == 'e' || e == 'E' then
        let sd : Int × List Char :=
          match rest with
          | '+' :: t => (1, t)
          | '-' :: t => (-1, t)
          | t => (1, t)
        if sd.2.isEmpty || !(sd.2.all Char.isDigit) then none
        else scaled (sd.1 * (digitsVal sd.2 : Int))
      else none

/-- ECMAScript `ToNumber` applied to a string, as used by loose equality
between a number and a string: trim whitespace; the empty string is `0`; an
optional sign followed by a decimal literal; or an unsigned `0x`/`0o`/`0b`
integer literal. The result `(m, k)` stands for the rational `m / 10 ^ k`;
everything unparseable — including `Infinity`, which like `NaN` is loosely
unequal to every finite stored id — is collapsed to `none`. -/
def jsToNumber (s : String) : Option (Int × Nat) :=
  match trimJs s.toList with
  | [] => some (0, 0)
  | '+' :: rest => (parseUnsignedDec rest).map (fun p => ((p.1 : Int), p.2))
  | '-' :: rest => (parseUnsignedDec rest).map (fun p => (-(p.1 : Int), p.2))
  | '0' :: c :: rest =>
    if c == 'x' || c == 'X' then
      (parseRadix 16 isHexDigit hexDigitVal rest).map (fun p => ((p.1 : Int), p.2))
    else if c == 'o' || c == 'O' then
      (parseRadix 8 (fun d => '0' ≤ d && d ≤ '7') (fun d => d.toNat - 48) rest).map
        (fun p => ((p.1 : Int), p.2))
    else if c == 'b' || c == 'B' then
      (parseRadix 2 (fun d => d == '0' || d == '1') (fun d => d.toNat - 48) rest).map
        (fun p => ((p.1 : Int), p.2))
    else (parseUnsignedDec ('0' :: c :: rest)).map (fun p => ((p.1 : Int), p.2))
  | t => (parseUnsignedDec t).map (fun p => ((p.1 : Int), p.2))

/-- Rational value denoted by a scaled-decimal pair `(m, k)`, namely `m / 10 ^ k`. -/
def scaledVal (p : Int × Nat) : ℚ :=
  (p.1 : ℚ) / (10 : ℚ) ^ p.2

/-- Loose equality `user.id == req.params.userId` between the numeric `id`
of a stored record and the textual path parameter: the string is coerced
with `ToNumber` and compared numerically; `NaN`/non-finite (`none`) compares
unequal to everything. The numeric comparison `idv = m / 10 ^ k` is carried
out in cross-multiplied integer form (`looseEq_iff_scaledVal` proves the two
agree), which keeps the function kernel-evaluable on concrete inputs. -/
def looseEq (idv : ℚ) (param : String) : Bool :=
  match jsToNumber param with
  | none => false
  | some p => idv.num * (10 : Int) ^ p.2 == p.1 * (idv.den : Int)

/-- User record as persisted in `data.json`: a numeric `id` assigned by the
server, and `name`/`role` copied verbatim from the request body, where
`none` stands for a missing/`undefined` field. -/
structure User where
  id : ℚ
  name : Option String
  role : Option String
deriving DecidableEq

/-- Embedding of `Array.prototype.findIndex`: index of the first element
satisfying the predicate, or the sentinel `-1` when none does. -/
def jsFindIndex (p : α → Bool) : List α → Int
  | [] => -1
  | a :: l =>
    if p a then 0
    else
      let r := jsFindIndex p l
      if r < 0 then -1 else r + 1

/-- Embedding of `Array.prototype.splice(start, deleteCount)` restricted to
deletion (no insertions, as used at line 140 of `src/index.js`): a negative
`start` counts back from the end and is clamped at `0`, a too-large `start`
is clamped at the length, and at most `deleteCount` elements from the
actual start position are removed. -/
def jsSplice (l : List α) (start : Int) (deleteCount : Nat) : List α :=
  let len := l.length
  let actualStart : Nat := if start < 0 then ((len : Int) + start).toNat else min start.toNat len
  let dc := min deleteCount (len - actualStart)
  l.take actualStart ++ l.drop (actualStart + dc)

/-- Handler `app.get("/:userId")` (lines 61–71): linear scan with
`array.find((user) => user.id == req.params.userId)`; `none` is the
`undefined` result sent when nothing matches. -/
def getOne (array : List User) (userId : String) : Option User :=
  array.find? (fun user => looseEq user.id userId)

/-- Core of handler `app.delete("/:userId")` (lines 123–150):
`deleteUserIndex = array.findIndex(...)`, then `array.splice(deleteUserIndex, 1)`;
the result is what gets written back to `data.json` unconditionally. -/
def deleteUser (array : List User) (userId : String) : List User :=
  let deleteUserIndex := jsFindIndex (fun user => looseEq user.id userId) array
  jsSplice array deleteUserIndex 1

/-- Core of handler `app.put("/:userId")` (lines 76–118):
`requestedUser = array.find(...)`, then `requestedUser.name = req.body.name;
requestedUser.role = req.body.role`. The found record is the very object
held in the array, so the in-place mutation replaces the first matching
element; when `find` returns `undefined` the field assignment throws a
`TypeError` (`none` here) before `writeFileSync` is reached. -/
def putUpdate (userId : String) (name role : Option String) : List User → Option (List User)
  | [] => none
  | user :: rest =>
    if looseEq user.id userId then
      some ({ user with name := name, role := role } :: rest)
    else
      (putUpdate userId name role rest).map (fun l => user :: l)

/-- Incoming HTTP requests, one constructor per route of `src/index.js`.
Body fields `name`/`role` are `Option String`, `none` meaning absent. -/
inductive Request where
  | list : Request
  | create (name role : Option String) : Request
  | get (userId : String) : Request
  | put (userId : String) (name role : Option String) : Request
  | delete (userId : String) : Request
deriving DecidableEq

/-- Outcome of a handler: `jsonArray` for `res.json(array)`, `jsonUser` for
`res.json(requestedUser)` (`none` = `undefined`), `empty` for `res.end()`,
and `error` for an uncaught exception (no response body sent by the handler). -/
inductive Response where
  | jsonArray (users : List User) : Response
  | jsonUser (u : Option User) : Response
  | empty : Response
  | error : Response
deriving DecidableEq

/-- One request-handling cycle of the Record Store Service: given the current
contents of `data.json`, the value produced by `Math.random()` for this
request, and the request, return the contents of `data.json` after the
handler finishes together with the response. Mirrors the five routes of
`src/index.js`; on the `put` path a `TypeError` (thrown when no record
matches) aborts the handler before `writeFileSync`, leaving the file as it
was. -/
def handle (file : List User) (rnd : ℚ) : Request → List User × Response
  | .list => (file, .jsonArray file)
  | .create name role => (file ++ [{ id := rnd, name := name, role := role }], .empty)
  | .get userId => (file, .jsonUser (getOne file userId))
  | .put userId name role =>
    match putUpdate userId name role file with
    | none => (file, .error)
    | some newArray => (newArray, .empty)
  | .delete userId => (deleteUser file userId, .empty)

/-! ### Bridging lemma: the cross-multiplied comparison in `looseEq` agrees
with numeric equality against the rational value of the parsed string. -/

/-- Cross-multiplied integer comparison is equality with the scaled value. -/
theorem scaled_eq_iff (idv : ℚ) (m : Int) (k : Nat) :
    idv.num * (10 : Int) ^ k = m * (idv.den : Int) ↔ idv = scaledVal (m, k) := by
  have hden : ((idv.den : ℚ)) ≠ 0 := Nat.cast_ne_zero.mpr idv.den_pos.ne'
  have h10 : ((10 : ℚ) ^ k) ≠ 0 := by positivity
  have key : (idv = scaledVal (m, k)) ↔
      ((idv.num : ℚ) / (idv.den : ℚ) = (m : ℚ) / (10 : ℚ) ^ k) := by
    rw [Rat.num_div_den]
    exact Iff.rfl
  rw [key, div_eq_div_iff hden h10]
  constructor
  · intro h
    exact_mod_cast h
  · intro h
    exact_mod_cast h

/-- Loose equality holds exactly when the path parameter coerces to a finite
number whose rational value equals the stored id. -/
theorem looseEq_iff_scaledVal (idv : ℚ) (s : String) :
    looseEq idv s = true ↔ ∃ p, jsToNumber s = some p ∧ idv = scaledVal p := by
  unfold looseEq
  cases h : jsToNumber s with
  | none => simp
  | some p =>
    simp only [beq_iff_eq, Option.some.injEq]
    constructor
    · intro he
      exact ⟨p, rfl, (scaled_eq_iff idv p.1 p.2).mp he⟩
    · rintro ⟨q, rfl, hq⟩
      exact (scaled_eq_iff idv p.1 p.2).mpr hq

/-! ### Generic lemmas about the embedded array operations -/

/-- When no element matches, `findIndex` returns the `-1` sentinel. -/
theorem jsFindIndex_eq_neg_one {p : α → Bool} {l : List α}
    (h : ∀ a ∈ l, p a = false) : jsFindIndex p l = -1 := by
  induction l with
  | nil => rfl
  | cons a t ih =>
    have ha : p a = false := h a (List.mem_cons_self a t)
    have ht : jsFindIndex p t = -1 := ih fun x hx => h x (List.mem_cons_of_mem a hx)
    simp [jsFindIndex, ha, ht]

/-- Any list with a matching element splits as unmatched prefix, first match,
rest. -/
theorem exists_first_match {p : α → Bool} {l : List α} (h : ∃ a ∈ l, p a = true) :
    ∃ l1 x l2, l = l1 ++ x :: l2 ∧ p x = true ∧ ∀ v ∈ l1, p v = false := by
  induction l with
  | nil => simp at h
  | cons a t ih =>
    cases hpa : p a with
    | true => exact ⟨[], a, t, rfl, hpa, by simp⟩
    | false =>
      obtain ⟨b, hb, hpb⟩ := h
      rcases List.mem_cons.mp hb with rfl | hbt
      · rw [hpa] at hpb
        cases hpb
      · obtain ⟨l1, x, l2, rfl, hx, hl1⟩ := ih ⟨b, hbt, hpb⟩
        refine ⟨a :: l1, x, l2, rfl, hx, ?_⟩
        intro v hv
        rcases List.mem_cons.mp hv with rfl | h2
        · exact hpa
        · exact hl1 v h2

/-- On a split at the first match, `findIndex` returns the prefix length. -/
theorem jsFindIndex_first_match {p : α → Bool} (l1 : List α) (x : α) (l2 : List α)
    (hl1 : ∀ v ∈ l1, p v = false) (hx : p x = true) :
    jsFindIndex p (l1 ++ x :: l2) = (l1.length : Int) := by
  induction l1 with
  | nil => simp [jsFindIndex, hx]
  | cons a t ih =>
    have ha : p a = false := hl1 a (List.mem_cons_self a t)
    have ht := ih fun v hv => hl1 v (List.mem_cons_of_mem a hv)
    simp only [List.cons_append, jsFindIndex, ha, Bool.false_eq_true, if_false,
      List.append_eq, ht, List.length_cons]
    rw [if_neg (by omega : ¬((t.length : Int) < 0))]
    push_cast
    ring

/-- Splice with the `-1` sentinel and count `1` removes the last element
(and removes nothing from the empty array). -/
theorem jsSplice_neg_one (l : List α) : jsSplice l (-1) 1 = l.dropLast := by
  cases l with
  | nil => rfl
  | cons a t =>
    simp only [jsSplice, List.length_cons]
    rw [if_pos (by omega : (-1 : Int) < 0)]
    rw [(by omega : (((t.length + 1 : Nat) : Int) + (-1)).toNat = t.length)]
    rw [(by omega : min 1 (t.length + 1 - t.length) = 1)]
    rw [List.drop_eq_nil_of_le (by simp), List.dropLast_eq_take]
    simp

/-- Splice at the index of the first match removes exactly that element. -/
theorem jsSplice_first_match (l1 : List α) (x : α) (l2 : List α) :
    jsSplice (l1 ++ x :: l2) (l1.length : Int) 1 = l1 ++ l2 := by
  simp only [jsSplice, List.length_append, List.length_cons]
  rw [if_neg (by omega : ¬((l1.length : Int) < 0))]
  rw [(by omega : min (l1.length : Int).toNat (l1.length + (l2.length + 1)) = l1.length)]
  rw [(by omega : min 1 (l1.length + (l2.length + 1) - l1.length) = 1)]
  have hd : (l1 ++ x :: l2).drop (l1.length + 1) = l2 := by
    have he : l1 ++ x :: l2 = (l1 ++ [x]) ++ l2 := by simp
    have hl : l1.length + 1 = (l1 ++ [x]).length := by simp
    rw [he, hl, List.drop_left]
  rw [List.take_left, hd]

/-- When no record matches, `find` returns `undefined` and the field
assignment throws: `putUpdate` yields `none`. -/
theorem putUpdate_eq_none (userId : String) (name role : Option String) (l : List User)
    (h : ∀ u ∈ l, looseEq u.id userId = false) :
    putUpdate userId name role l = none := by
  induction l with
  | nil => rfl
  | cons a t ih =>
    have ha := h a (List.mem_cons_self a t)
    have ht := ih fun u hu => h u (List.mem_cons_of_mem a hu)
    simp [putUpdate, ha, ht]

/-- Updating at the first match overwrites exactly that record's
`name`/`role`, leaving its `id` and all other records untouched. -/
theorem putUpdate_first_match (userId : String) (name role : Option String)
    (l1 : List User) (x : User) (l2 : List User)
    (hl1 : ∀ v ∈ l1, looseEq v.id userId = false) (hx : looseEq x.id userId = true) :
    putUpdate userId name role (l1 ++ x :: l2) =
      some (l1 ++ { id := x.id, name := name, role := role } :: l2) := by
  induction l1 with
  | nil => simp [putUpdate, hx]
  | cons a t ih =>
    have ha := hl1 a (List.mem_cons_self a t)
    have ht := ih fun v hv => hl1 v (List.mem_cons_of_mem a hv)
    simp [putUpdate, ha, ht]

/-- Characterisation of `find?` as returning the first match. -/
theorem find?_eq_some_first_match (p : α → Bool) (l : List α) (u : α) :
    l.find? p = some u ↔
      ∃ l1 l2, l = l1 ++ u :: l2 ∧ p u = true ∧ ∀ v ∈ l1, p v = false := by
  induction l with
  | nil => simp
  | cons a t ih =>
    cases hpa : p a with
    | true =>
      rw [List.find?_cons_of_pos t hpa]
      constructor
      · intro h
        injection h with h
        subst h
        exact ⟨[], t, rfl, hpa, by simp⟩
      · rintro ⟨l1, l2, heq, hu, hl1⟩
        cases l1 with
        | nil =>
          simp only [List.nil_append] at heq
          injection heq with h1 h2
          rw [h1]
        | cons b t1 =>
          simp only [List.cons_append] at heq
          injection heq with h1 h2
          subst h1
          have hb := hl1 a (List.mem_cons_self a t1)
          rw [hb] at hpa
          cases hpa
    | false =>
      rw [List.find?_cons_of_neg t (by simp [hpa]), ih]
      constructor
      · rintro ⟨l1, l2, heq, hu, hl1⟩
        refine ⟨a :: l1, l2, by rw [heq, List.cons_append], hu, ?_⟩
        intro v hv
        rcases List.mem_cons.mp hv with rfl | hv2
        · exact hpa
        · exact hl1 v hv2
      · rintro ⟨l1, l2, heq, hu, hl1⟩
        cases l1 with
        | nil =>
          simp only [List.nil_append] at heq
          injection heq with h1 h2
          subst h1
          rw [hu] at hpa
          cases hpa
        | cons b t1 =>
          simp only [List.cons_append] at heq
          injection heq with h1 h2
          subst h1
          exact ⟨t1, l2, h2, hu, fun v hv => hl1 v (List.mem_cons_of_mem a hv)⟩

/-! ### Claim theorems -/

/-- C1: for every non-empty collection and every requested identifier that
loosely equals no record's id, the delete operation removes the last record
of the collection (`findIndex` returns the `-1` sentinel and `splice(-1, 1)`
deletes one element from the end) and persists the shortened collection. -/
theorem C1_delete_no_match_removes_last (file : List User) (rnd : ℚ) (userId : String)
    (hne : file ≠ []) (hnm : ∀ u ∈ file, looseEq u.id userId = false) :
    handle file rnd (.delete userId) = (file.dropLast, .empty) ∧
      file.dropLast.length + 1 = file.length := by
  have hidx : jsFindIndex (fun u => looseEq u.id userId) file = -1 :=
    jsFindIndex_eq_neg_one hnm
  have hdel : deleteUser file userId = file.dropLast := by
    unfold deleteUser
    rw [hidx, jsSplice_neg_one]
  refine ⟨by simp [handle, hdel], ?_⟩
  rw [List.length_dropLast]
  have : file.length ≠ 0 := fun h => hne (List.length_eq_zero.mp h)
  omega

/-- Witness for C1 at the singleton collection `[{id 1, Ann, admin}]` and
the unmatched identifier `"2"`. -/
theorem C1_witness :
    handle [{ id := 1, name := some "Ann", role := some "admin" }] 0 (.delete "2")
      = ([], .empty) := by
  have h := C1_delete_no_match_removes_last
    [{ id := 1, name := some "Ann", role := some "admin" }] 0 "2"
    (by decide) (by decide)
  simpa using h.1

/-- C2 counterexample: the claim says delete with an unmatched identifier
never alters the collection length, but deleting the unmatched identifier
`"2"` from the singleton collection `[{id 1, Ann, admin}]` persists a
collection of length `0`, not `1`. -/
theorem C2_counterexample :
    ¬ ((handle [{ id := 1, name := some "Ann", role := some "admin" }] 0
          (.delete "2")).1.length
        = ([{ id := 1, name := some "Ann", role := some "admin" }] : List User).length) := by
  decide

/-- C2 amended: for every collection and every requested identifier that
loosely equals no record's id, the delete operation persists the collection
with its last record dropped: the length is unchanged only for the empty
collection, and shrinks by one for every non-empty collection. -/
theorem C2_delete_no_match_drops_last (file : List User) (rnd : ℚ) (userId : String)
    (hnm : ∀ u ∈ file, looseEq u.id userId = false) :
    (handle file rnd (.delete userId)).1 = file.dropLast ∧
      (handle file rnd (.delete userId)).1.length = file.length - 1 := by
  have hidx : jsFindIndex (fun u => looseEq u.id userId) file = -1 :=
    jsFindIndex_eq_neg_one hnm
  have hdel : deleteUser file userId = file.dropLast := by
    unfold deleteUser
    rw [hidx, jsSplice_neg_one]
  refine ⟨by simp [handle, hdel], ?_⟩
  simp [handle, hdel, List.length_dropLast]

/-- Witness for the amended C2 at the two-element collection with ids `1`
and `2` and the unmatched identifier `"3"`. -/
theorem C2_witness :
    (handle [{ id := 1, name := none, role := none },
             { id := 2, name := none, role := none }] 0 (.delete "3")).1
        = [{ id := 1, name := none, role := none }] ∧
      (handle [{ id := 1, name := none, role := none },
               { id := 2, name := none, role := none }] 0 (.delete "3")).1.length = 1 := by
  have h := C2_delete_no_match_drops_last
    [{ id := 1, name := none, role := none }, { id := 2, name := none, role := none }]
    0 "3" (by decide)
  simpa using h

/-- C3 counterexample: the claim says an update with an unmatched identifier
persists the unchanged collection and responds success, but updating the
unmatched identifier `"2"` on the collection `[{id 1, Ann, admin}]` does not
produce a success response: the handler throws. -/
theorem C3_counterexample :
    ¬ ((handle [{ id := 1, name := some "Ann", role := some "admin" }] 0
          (.put "2" (some "Bo") (some "user"))).2 = Response.empty) := by
  decide

/-- C3 amended: for every collection and every requested identifier that
loosely equals no record's id, the update operation leaves the stored
collection unchanged (in particular the collection length is unchanged),
but it does not reach the persist step and does not respond success: the
field assignment on the undefined result of `find` throws. -/
theorem C3_put_no_match_no_success (file : List User) (rnd : ℚ) (userId : String)
    (name role : Option String) (hnm : ∀ u ∈ file, looseEq u.id userId = false) :
    (handle file rnd (.put userId name role)).1 = file ∧
      (handle file rnd (.put userId name role)).1.length = file.length ∧
      (handle file rnd (.put userId name role)).2 ≠ Response.empty := by
  have hp := putUpdate_eq_none userId name role file hnm
  refine ⟨by simp [handle, hp], by simp [handle, hp], by simp [handle, hp]⟩

/-- Witness for the amended C3 at the singleton collection `[{id 1, Ann,
admin}]` and the unmatched identifier `"2"`. -/
theorem C3_witness :
    (handle [{ id := 1, name := some "Ann", role := some "admin" }] 0
        (.put "2" (some "Bo") (some "user"))).1
      = [{ id := 1, name := some "Ann", role := some "admin" }] ∧
    (handle [{ id := 1, name := some "Ann", role := some "admin" }] 0
        (.put "2" (some "Bo") (some "user"))).2 ≠ Response.empty := by
  have h := C3_put_no_match_no_success
    [{ id := 1, name := some "Ann", role := some "admin" }] 0 "2"
    (some "Bo") (some "user") (by decide)
  exact ⟨h.1, h.2.2⟩

/-- C4: for every collection and every requested identifier that loosely
equals no record's id, the update operation throws (assigning a field on the
undefined result of `find`) before reaching the persist step, so the storage
file is left unchanged on this error path. -/
theorem C4_put_no_match_throws_before_persist (file : List User) (rnd : ℚ)
    (userId : String) (name role : Option String)
    (hnm : ∀ u ∈ file, looseEq u.id userId = false) :
    putUpdate userId name role file = none ∧
      handle file rnd (.put userId name role) = (file, .error) := by
  have hp := putUpdate_eq_none userId name role file hnm
  exact ⟨hp, by simp [handle, hp]⟩

/-- Witness for C4 at the singleton collection `[{id 5, Bo, user}]` and the
unmatched identifier `"1"`. -/
theorem C4_witness :
    putUpdate "1" (some "X") none [{ id := 5, name := some "Bo", role := some "user" }]
        = none ∧
      handle [{ id := 5, name := some "Bo", role := some "user" }] 0
          (.put "1" (some "X") none)
        = ([{ id := 5, name := some "Bo", role := some "user" }], .error) :=
  C4_put_no_match_throws_before_persist
    [{ id := 5, name := some "Bo", role := some "user" }] 0 "1" (some "X") none
    (by decide)

/-- C5: for every collection and every create request, the persisted
collection is one longer, the new record is appended at the end, its
`name`/`role` are the submitted values verbatim (including missing), and
its id is the value produced by the random generator. -/
theorem C5_create_appends (file : List User) (rnd : ℚ) (name role : Option String) :
    (handle file rnd (.create name role)).1.length = file.length + 1 ∧
      (handle file rnd (.create name role)).1
        = file ++ [{ id := rnd, name := name, role := role }] ∧
      (handle file rnd (.create name role)).1.getLast?
        = some { id := rnd, name := name, role := role } ∧
      (handle file rnd (.create name role)).2 = .empty := by
  refine ⟨by simp [handle], rfl, ?_, rfl⟩
  simp [handle, List.getLast?_concat]

/-- C6: for every collection and every requested identifier, the
get-by-identifier operation returns the first record (in collection order)
whose id loosely equals the requested textual identifier, and returns the
empty/`undefined` result exactly when no record matches. -/
theorem C6_get_returns_first_match (file : List User) (rnd : ℚ) (userId : String) :
    (∀ u : User,
        (handle file rnd (.get userId)).2 = .jsonUser (some u) ↔
          ∃ l1 l2, file = l1 ++ u :: l2 ∧ looseEq u.id userId = true ∧
            ∀ v ∈ l1, looseEq v.id userId = false) ∧
      ((handle file rnd (.get userId)).2 = .jsonUser none ↔
        ∀ u ∈ file, looseEq u.id userId = false) := by
  constructor
  · intro u
    have : (handle file rnd (.get userId)).2 = .jsonUser (some u) ↔
        getOne file userId = some u := by
      simp [handle]
    rw [this]
    exact find?_eq_some_first_match (fun v => looseEq v.id userId) file u
  · have : (handle file rnd (.get userId)).2 = .jsonUser none ↔
        getOne file userId = none := by
      simp [handle]
    rw [this]
    unfold getOne
    rw [List.find?_eq_none]
    constructor
    · intro h u hu
      have := h u hu
      simpa using this
    · intro h u hu
      simp [h u hu]

/-- C7: for every collection containing a record whose id loosely equals the
requested identifier, the update operation overwrites only the `name` and
`role` of the first such record, leaving its id and every other record
unchanged, persists the result, and a subsequent get returns the record with
the new `name`/`role` and the unchanged id. -/
theorem C7_put_updates_in_place (file : List User) (rnd : ℚ) (userId : String)
    (name role : Option String) (hm : ∃ u ∈ file, looseEq u.id userId = true) :
    ∃ l1 x l2, file = l1 ++ x :: l2 ∧ looseEq x.id userId = true ∧
      (∀ v ∈ l1, looseEq v.id userId = false) ∧
      handle file rnd (.put userId name role)
        = (l1 ++ { id := x.id, name := name, role := role } :: l2, .empty) ∧
      getOne (l1 ++ { id := x.id, name := name, role := role } :: l2) userId
        = some { id := x.id, name := name, role := role } := by
  obtain ⟨l1, x, l2, rfl, hx, hl1⟩ := exists_first_match hm
  refine ⟨l1, x, l2, rfl, hx, hl1, ?_, ?_⟩
  · simp [handle, putUpdate_first_match userId name role l1 x l2 hl1 hx]
  · unfold getOne
    apply (find?_eq_some_first_match (fun v : User => looseEq v.id userId) _ _).mpr
    exact ⟨l1, l2, rfl, hx, hl1⟩

/-- Witness for C7: updating id `"1"` in `[{id 1, Ann, admin}]` with name
`Bo` and role `user`. -/
theorem C7_witness :
    ∃ l1 x l2,
      ([{ id := 1, name := some "Ann", role := some "admin" }] : List User)
          = l1 ++ x :: l2 ∧
        looseEq x.id "1" = true ∧
        (∀ v ∈ l1, looseEq v.id "1" = false) ∧
        handle [{ id := 1, name := some "Ann", role := some "admin" }] 0
            (.put "1" (some "Bo") (some "user"))
          = (l1 ++ { id := x.id, name := some "Bo", role := some "user" } :: l2, .empty) ∧
        getOne (l1 ++ { id := x.id, name := some "Bo", role := some "user" } :: l2) "1"
          = some { id := x.id, name := some "Bo", role := some "user" } :=
  C7_put_updates_in_place [{ id := 1, name := some "Ann", role := some "admin" }] 0 "1"
    (some "Bo") (some "user") (by decide)

/-- C8: the list operation and the get-by-identifier operation never mutate
the stored collection — the persisted file contents after either read equal
the contents before — and list returns the full collection unmodified. -/
theorem C8_reads_never_mutate (file : List User) (rnd : ℚ) (userId : String) :
    (handle file rnd .list).1 = file ∧
      (handle file rnd (.get userId)).1 = file ∧
      (handle file rnd .list).2 = .jsonArray file :=
  ⟨rfl, rfl, rfl⟩

/-- C9: for every collection containing a record whose id loosely equals the
requested identifier, the delete operation removes exactly one element — the
first matching record at its found position — and preserves the relative
order of all remaining records. -/
theorem C9_delete_removes_first_match (file : List User) (rnd : ℚ) (userId : String)
    (hm : ∃ u ∈ file, looseEq u.id userId = true) :
    ∃ l1 x l2, file = l1 ++ x :: l2 ∧ looseEq x.id userId = true ∧
      (∀ v ∈ l1, looseEq v.id userId = false) ∧
      handle file rnd (.delete userId) = (l1 ++ l2, .empty) := by
  obtain ⟨l1, x, l2, rfl, hx, hl1⟩ := exists_first_match hm
  refine ⟨l1, x, l2, rfl, hx, hl1, ?_⟩
  have hidx := jsFindIndex_first_match l1 x l2 hl1 hx
  simp [handle, deleteUser, hidx, jsSplice_first_match]

/-- Witness for C9: the spec scenario — deleting id `"1"` from
`[{id 1, Ann, admin}]` empties the collection. -/
theorem C9_witness :
    ∃ l1 x l2,
      ([{ id := 1, name := some "Ann", role := some "admin" }] : List User)
          = l1 ++ x :: l2 ∧
        looseEq x.id "1" = true ∧
        (∀ v ∈ l1, looseEq v.id "1" = false) ∧
        handle [{ id := 1, name := some "Ann", role := some "admin" }] 0 (.delete "1")
          = (l1 ++ l2, .empty) :=
  C9_delete_removes_first_match [{ id := 1, name := some "Ann", role := some "admin" }]
    0 "1" (by decide)

/-- C10: for the empty collection and every requested identifier, the delete
operation leaves the collection empty: `splice(-1, 1)` on an empty array
removes nothing, and the empty array is persisted back unchanged. -/
theorem C10_delete_on_empty (rnd : ℚ) (userId : String) :
    handle [] rnd (.delete userId) = ([], .empty) := by
  have hidx : jsFindIndex (fun u => looseEq u.id userId) ([] : List User) = -1 := rfl
  simp [handle, deleteUser, hidx, jsSplice_neg_one]
